import Mathlib

/-!
Verification of the quarto-ojs-offline extension.

This file gives a shallow embedding of the request-interception and
specifier-resolution engine of the repository:

* `resources/ojs-offline-resolver.js` — the standalone resolver script:
  `parsePackageIdentifier`, `findLocalPath`, `loadDependencyMap`,
  `window.__quartoOjsOffline.setDebug`.
* `ojs-offline.lua` — the Quarto filter whose inline interceptor script
  defines a second resolver (`findLocalPathL` below), the CDN URL
  rewriter `cdnToLocal`, the `window.fetch` wrapper, and the
  `document.createElement` wrapper.

JavaScript objects used as dictionaries are modelled as association
lists in insertion order (`DepMap`); `for-in` enumeration and JS object
key iteration follow list order.  The model assumes keys are not
array-index strings (no key of the dependency map is).  JS truthiness
tests on looked-up string values are modelled by `getTruthy`, which
treats a missing key and an empty-string value alike, exactly as the
source code tests `if (obj[k])`.  Prototype-chain lookups are outside
the model: the map is a plain dictionary.
-/

/-- A JS object used as a string-to-string dictionary, in insertion order. -/
abbrev DepMap := List (String × String)

/-- Lookup of `m[k]` on a JS dictionary: value of the first matching key. -/
def jsLookup : DepMap → String → Option String
  | [], _ => none
  | (k, v) :: rest, q => if k = q then some v else jsLookup rest q

/-- Models the JS pattern `if (m[k]) ... m[k]`: yields the value only when it
is truthy, i.e. the key is present and its value is a non-empty string. -/
def getTruthy (m : DepMap) (k : String) : Option String :=
  match jsLookup m k with
  | some v => if v = "" then none else some v
  | none => none

/-- First value of `m` whose key satisfies `p`, in iteration order; models a
JS `for (const key in m)` loop that returns `m[key]` on the first hit. -/
def scanFirst (p : String → Bool) : DepMap → Option String
  | [] => none
  | (k, v) :: rest => if p k then some v else scanFirst p rest

/-- Early-return composition: the value of the first block when it produced
one, otherwise the value of the second. -/
def firstSome (a b : Option String) : Option String :=
  match a with
  | some v => some v
  | none => b

/-- Splits a character list at the first occurrence of `c` (the occurrence
itself is dropped); `none` when `c` does not occur.  Models
`indexOf`-based splitting and the backtracking-free part of the regexes. -/
def splitFirst (c : Char) : List Char → Option (List Char × List Char)
  | [] => none
  | x :: xs =>
    if x = c then some ([], xs)
    else
      match splitFirst c xs with
      | some (l, r) => some (x :: l, r)
      | none => none

/-- Splits a character list at the last occurrence of `c`; models
`s.substring(0, s.lastIndexOf(c))` and `s.substring(s.lastIndexOf(c)+1)`;
`none` when `c` does not occur (JS `lastIndexOf` = -1). -/
def splitLast (c : Char) : List Char → Option (List Char × List Char)
  | [] => none
  | x :: xs =>
    match splitLast c xs with
    | some (l, r) => some (x :: l, r)
    | none => if x = c then some ([], xs) else none

/-- Characters before the first occurrence of `c` (the whole list when `c`
is absent); models `s.split(c)[0]`. -/
def takeUntil (c : Char) : List Char → List Char
  | [] => []
  | x :: xs => if x = c then [] else x :: takeUntil c xs

/-- JS line terminators, the characters not matched by `.` in a regex. -/
def isLineTerminator (c : Char) : Bool :=
  c = '\n' || c = '\r' || c = '\u2028' || c = '\u2029'

/-- Models `s.startsWith(pre)`. -/
def sStartsWith (s pre : String) : Bool :=
  pre.data.isPrefixOf s.data

/-- Models `s.endsWith(suf)`. -/
def sEndsWith (s suf : String) : Bool :=
  suf.data.isSuffixOf s.data

/-- Models `s.slice(pre.length)` for an ASCII `pre` (UTF-16 length equals
character count there). -/
def dropStart (pre s : String) : String :=
  ⟨s.data.drop pre.data.length⟩

/-- Removes the first occurrence of `pat` from `cs`; models the JS
`cs.replace(pat, '')` with a plain-string pattern. -/
def removeFirstOcc (pat : List Char) (cs : List Char) : List Char :=
  match cs with
  | [] => []
  | x :: xs =>
    if pat.isPrefixOf (x :: xs) then (x :: xs).drop pat.length
    else x :: removeFirstOcc pat xs

/-! ## The specifier parser of `ojs-offline-resolver.js` (lines 49-76)

The two regexes are embedded as deterministic matchers.  Both regexes
are anchored (`^ ... $`), and every backtracking choice in them is
forced: a negated character class cannot cross its excluded character,
so each group extends exactly to the next occurrence of the delimiter.
-/

/-- Shared tail `([^/]+)(?:\/(.+))?$` of both specifier regexes: a version
group (no `/`), optionally followed by `/` and a non-empty subpath in
which `.` must match every character, so the subpath may not contain a
line terminator. -/
def matchTail (r : List Char) : Option (List Char × List Char) :=
  match splitFirst '/' r with
  | none => if r = [] then none else some (r, [])
  | some (g2, rest) =>
    if g2 = [] then none
    else if rest = [] then none
    else if rest.any isLineTerminator then none
    else some (g2, rest)

/-- The scoped-package regex `^(@[^/]+\/[^@]+)@([^/]+)(?:\/(.+))?$` of
`parsePackageIdentifier`.  Returns `(name, version, path)` on a match. -/
def matchScoped (s : String) : Option (String × String × String) :=
  match s.data with
  | '@' :: t =>
    match splitFirst '/' t with
    | some (a, t2) =>
      if a = [] then none
      else
        match splitFirst '@' t2 with
        | some (b, r) =>
          if b = [] then none
          else
            match matchTail r with
            | some (g2, g3) => some (⟨'@' :: (a ++ '/' :: b)⟩, ⟨g2⟩, ⟨g3⟩)
            | none => none
        | none => none
    | none => none
  | _ => none

/-- The regular-package regex `^([^@]+)@([^/]+)(?:\/(.+))?$` of
`parsePackageIdentifier`.  Returns `(name, version, path)` on a match. -/
def matchRegular (s : String) : Option (String × String × String) :=
  match splitFirst '@' s.data with
  | some (g1, r) =>
    if g1 = [] then none
    else
      match matchTail r with
      | some (g2, g3) => some (⟨g1⟩, ⟨g2⟩, ⟨g3⟩)
      | none => none
  | none => none

/-- The record returned by `parsePackageIdentifier`: JS `version: null`
becomes `none`, and an absent path group becomes `""` (the source
applies `|| ''`). -/
structure PackageSpecifier where
  name : String
  version : Option String
  path : String
deriving DecidableEq, Repr

/-- `parsePackageIdentifier` from `ojs-offline-resolver.js` lines 49-76:
scoped regex, then regular regex, then the bare-name fallback. -/
def parsePackageIdentifier (specifier : String) : PackageSpecifier :=
  match matchScoped specifier with
  | some (n, v, p) => { name := n, version := some v, path := p }
  | none =>
    match matchRegular specifier with
    | some (n, v, p) => { name := n, version := some v, path := p }
    | none => { name := specifier, version := none, path := "" }

/-! ## `findLocalPath` of `ojs-offline-resolver.js` (lines 79-117) -/

/-- The `fullKey` template of `findLocalPath` line 90:
`name@version` plus `/path` when a path was parsed, or the raw
specifier when no version was parsed. -/
def fullKeyOf (parsed : PackageSpecifier) (specifier : String) : String :=
  match parsed.version with
  | some ver =>
    parsed.name ++ "@" ++ ver ++ (if parsed.path = "" then "" else "/" ++ parsed.path)
  | none => specifier

/-- The `baseKey` template of `findLocalPath` line 100: `name@version`, or
the bare parsed name when no version was parsed. -/
def baseKeyOf (parsed : PackageSpecifier) : String :=
  match parsed.version with
  | some ver => parsed.name ++ "@" ++ ver
  | none => parsed.name

/-- `findLocalPath` of `ojs-offline-resolver.js`: direct truthy lookup, then
canonical-reconstruction lookup, then base-key lookup, then a `for-in`
scan for the first key starting with `name@`.  The scan returns the
stored value without a further truthiness test, as the source does. -/
def findLocalPath (m : DepMap) (specifier : String) : Option String :=
  match getTruthy m specifier with
  | some v => some v
  | none =>
    match getTruthy m (fullKeyOf (parsePackageIdentifier specifier) specifier) with
    | some v => some v
    | none =>
      match getTruthy m (baseKeyOf (parsePackageIdentifier specifier)) with
      | some v => some v
      | none =>
        scanFirst (fun k => sStartsWith k ((parsePackageIdentifier specifier).name ++ "@")) m

/-- Strategy 1 of `findLocalPath`, as an isolated step. -/
def jsDirectStep (m : DepMap) (s : String) : Option String :=
  getTruthy m s

/-- Strategy 2 of `findLocalPath` (canonical reconstruction), isolated. -/
def jsFullKeyStep (m : DepMap) (s : String) : Option String :=
  getTruthy m (fullKeyOf (parsePackageIdentifier s) s)

/-- Strategy 3 of `findLocalPath` (base package), isolated. -/
def jsBaseKeyStep (m : DepMap) (s : String) : Option String :=
  getTruthy m (baseKeyOf (parsePackageIdentifier s))

/-- Strategy 4 of `findLocalPath` (any-version scan), isolated. -/
def jsScanStep (m : DepMap) (s : String) : Option String :=
  scanFirst (fun k => sStartsWith k ((parsePackageIdentifier s).name ++ "@")) m

/-! ## The inline interceptor script of `ojs-offline.lua` -/

/-- The fixed `versionAliases` table of the inline script (lua lines
124-134): major-version shorthand to the bundled full version. -/
def versionAliases : DepMap :=
  [ ("d3@7", "d3@7.8.5")
  , ("d3@6", "d3@7.8.5")
  , ("lodash@4", "lodash@4.17.21")
  , ("htl@0", "htl@0.3.1")
  , ("@observablehq/inputs@0", "@observablehq/inputs@0.10.6")
  , ("@observablehq/plot@0", "@observablehq/plot@0.6.11")
  , ("vega@5", "vega@5.22.1")
  , ("vega-lite@5", "vega-lite@5.6.0")
  ]

/-- Core of the bare-name regex `[^@\/]+(?:\/[^@\/]+)?`: a non-empty run
of characters other than `@` and `/`, optionally followed by `/` and a
second such run.  Returns the matched characters. -/
def bareCore (cs : List Char) : Option (List Char) :=
  let t1 := cs.takeWhile (fun c => c ≠ '@' && c ≠ '/')
  if t1 = [] then none
  else
    match cs.drop t1.length with
    | '/' :: r2 =>
      let t2 := r2.takeWhile (fun c => c ≠ '@' && c ≠ '/')
      if t2 = [] then some t1 else some (t1 ++ '/' :: t2)
    | _ => some t1

/-- The bare-name regex `^(@?[^@\/]+(?:\/[^@\/]+)?)` of the inline
resolver (lua line 160): an optional leading `@` then `bareCore`.  When
the optional `@` is taken but the core fails, backtracking to the empty
alternative also fails because the next character is `@`. -/
def bareMatch (cs : List Char) : Option (List Char) :=
  match cs with
  | '@' :: rest => (bareCore rest).map (fun g => '@' :: g)
  | _ => bareCore cs

/-- The version-alias block of the inline `findLocalPath` (lua lines
143-157): split at the last `@` (requiring `lastIndexOf('@') > 0`), take
the major version before the first `.`, consult `versionAliases`, and on
a hit look the aliased key up in the dependency map.  Both lookups are
JS truthiness tests. -/
def luaAliasStep (m : DepMap) (specifier : String) : Option String :=
  match splitLast '@' specifier.data with
  | some (nm, ver) =>
    if nm = [] then none
    else
      match getTruthy versionAliases ⟨nm ++ '@' :: takeUntil '.' ver⟩ with
      | some aliased => getTruthy m aliased
      | none => none
  | none => none

/-- The bare-name block of the inline `findLocalPath` (lua lines 159-163):
match the bare-name regex and look the matched group up in the map. -/
def luaBareStep (m : DepMap) (specifier : String) : Option String :=
  match bareMatch specifier.data with
  | some g => getTruthy m ⟨g⟩
  | none => none

/-- The any-version block of the inline `findLocalPath` (lua lines
165-171): `pkgName` is `split('@')[0]`, or `split('/')[0]` when that is
empty, and the first key equal to `pkgName` or starting with `pkgName@`
wins; its value is returned without a truthiness test. -/
def luaScanStep (m : DepMap) (specifier : String) : Option String :=
  let a := takeUntil '@' specifier.data
  let pkgName := if a = [] then takeUntil '/' specifier.data else a
  scanFirst (fun k => sStartsWith k ⟨pkgName ++ ['@']⟩ || k = ⟨pkgName⟩) m

/-- The inline `findLocalPath` of the interceptor script injected by
`ojs-offline.lua` (lines 137-174): direct truthy lookup, then the
version-alias block, then the bare-name block, then the any-version
scan. -/
def findLocalPathL (m : DepMap) (specifier : String) : Option String :=
  match getTruthy m specifier with
  | some v => some v
  | none =>
    match luaAliasStep m specifier with
    | some v => some v
    | none =>
      match luaBareStep m specifier with
      | some v => some v
      | none => luaScanStep m specifier

/-- The jsDelivr base URL recognized by the interceptor (lua line 121). -/
def CDN_JSDELIVR : String := "https://cdn.jsdelivr.net/npm/"

/-- The Observable base URL recognized by the interceptor (lua line 122). -/
def CDN_OBSERVABLE : String := "https://cdn.observableusercontent.com/npm/"

/-- Result of `cdnToLocal` (lua lines 177-198): not intercepted (JS
`null`, or a falsy local path), a local path string, or the marker
object for a `package.json` request carrying the bare specifier. -/
inductive CdnResult where
  | noIntercept
  | localPath (p : String)
  | packageJsonReq (pkg : String)
deriving DecidableEq, Repr

/-- Body of `cdnToLocal` once the CDN prefix has been stripped: the empty
specifier is falsy and not intercepted; a specifier ending in
`/package.json` yields the manifest marker with the first occurrence of
`/package.json` removed; otherwise a truthy resolver hit yields the
local path and anything else passes through. -/
def cdnPkgToLocal (m : DepMap) (pkg : String) : CdnResult :=
  if pkg = "" then CdnResult.noIntercept
  else if sEndsWith pkg "/package.json" then
    CdnResult.packageJsonReq ⟨removeFirstOcc "/package.json".data pkg.data⟩
  else
    match findLocalPathL m pkg with
    | some p => if p = "" then CdnResult.noIntercept else CdnResult.localPath p
    | none => CdnResult.noIntercept

/-- `cdnToLocal` of the inline script (lua lines 177-198): strip a
recognized CDN prefix and delegate to `cdnPkgToLocal`; URLs starting
with neither prefix are never intercepted. -/
def cdnToLocal (m : DepMap) (url : String) : CdnResult :=
  if sStartsWith url CDN_JSDELIVR then cdnPkgToLocal m (dropStart CDN_JSDELIVR url)
  else if sStartsWith url CDN_OBSERVABLE then cdnPkgToLocal m (dropStart CDN_OBSERVABLE url)
  else CdnResult.noIntercept

/-- The synthesized `package.json` object of the fetch wrapper (lua lines
212-218). -/
structure Manifest where
  name : String
  version : String
  main : String
  jsdelivr : String
  unpkg : String
deriving DecidableEq, Repr

/-- Manifest `name` field: `pkgName.split('@')[0]` (lua line 213). -/
def manifestNameOf (pkg : String) : String :=
  ⟨takeUntil '@' pkg.data⟩

/-- Manifest `version` field: `pkgName.split('@')[1] || '1.0.0'` (lua line
214) — the text between the first and second `@`, with the default
applied when it is absent or empty. -/
def manifestVersionOf (pkg : String) : String :=
  match splitFirst '@' pkg.data with
  | some (_, r) =>
    let v := takeUntil '@' r
    if v = [] then "1.0.0" else ⟨v⟩
  | none => "1.0.0"

/-- Basename `p.split('/').pop()` (lua lines 215-217): the text after the
last `/`, or the whole string without one. -/
def baseNameOf (p : String) : String :=
  match splitLast '/' p.data with
  | some (_, r) => ⟨r⟩
  | none => p

/-- Observable outcome of one invocation of the wrapped `window.fetch`:
either a synthesized manifest response is returned directly, or the
original fetch is invoked with the given URL. -/
inductive FetchOutcome where
  | fakeManifest (man : Manifest)
  | delegate (url : String)
deriving DecidableEq, Repr

/-- The `window.fetch` wrapper of the inline script (lua lines 201-236),
for a string input URL (a `Request` input behaves identically on its
`.url`).  A manifest request whose specifier resolves to a truthy path
returns the synthesized manifest; a code request that resolves is
delegated with the rewritten URL; everything else is delegated with the
URL unmodified. -/
def fetchWrapped (m : DepMap) (url : String) : FetchOutcome :=
  match cdnToLocal m url with
  | CdnResult.noIntercept => FetchOutcome.delegate url
  | CdnResult.localPath p => FetchOutcome.delegate p
  | CdnResult.packageJsonReq pkg =>
    match findLocalPathL m pkg with
    | some mainPath =>
      if mainPath = "" then FetchOutcome.delegate url
      else
        FetchOutcome.fakeManifest
          { name := manifestNameOf pkg
          , version := manifestVersionOf pkg
          , main := baseNameOf mainPath
          , jsdelivr := baseNameOf mainPath
          , unpkg := baseNameOf mainPath }
    | none => FetchOutcome.delegate url

/-- The `src` property setter installed on created script elements (lua
lines 255-266): a URL whose interception yields a local path string is
replaced, everything else (including the manifest marker object, which
is not a string) is passed through unchanged. -/
def scriptSrcRewrite (m : DepMap) (value : String) : String :=
  match cdnToLocal m value with
  | CdnResult.localPath p => p
  | _ => value

/-- The wrapped `setAttribute` of created script elements (lua lines
244-252): only the `src` attribute is rewritten. -/
def scriptSetAttributeValue (m : DepMap) (nm value : String) : String :=
  if nm = "src" then scriptSrcRewrite m value else value

/-! ## `loadDependencyMap` of `ojs-offline-resolver.js` (lines 23-46) -/

/-- Environment of one run of `loadDependencyMap`.  `mapScriptSrc` is the
`ojs-dependency-map` element: absent, present without a `src`
attribute, or present with one.  `primaryResult` is the combined
fetch-and-parse of the embedded reference (`Except.error` = a thrown
exception).  `fallbackResult` is the direct fetch of the conventional
filename: `Except.error` = thrown, `Except.ok none` = response not ok,
`Except.ok (some m)` = parsed map. -/
structure LoadEnv where
  mapScriptSrc : Option (Option String)
  primaryResult : Except String DepMap
  fallbackResult : Except String (Option DepMap)

/-- The final value of the module-level `dependencyMap` after
`loadDependencyMap` runs: the embedded reference is tried first and
returns early on success; the direct fetch is tried otherwise; any
thrown exception is caught (`console.warn`) and leaves the initial
empty map in place.  The function is total: no failure escapes to the
caller. -/
def loadDependencyMap (env : LoadEnv) : DepMap :=
  match env.mapScriptSrc with
  | some (some _) =>
    match env.primaryResult with
    | Except.ok m => m
    | Except.error _ => []
  | _ =>
    match env.fallbackResult with
    | Except.ok (some m) => m
    | Except.ok none => []
    | Except.error _ => []

/-! ## Installation of the interceptor (lua lines 201-269)

The inline script unconditionally executes
`const originalFetch = window.fetch; window.fetch = function ...` and
`const originalCreateElement = document.createElement...;
document.createElement = function ...`.  There is no guard flag
anywhere in the script, so each execution adds one wrapper layer around
whatever was installed before.
-/

/-- The chain of wrappers installed over the native `window.fetch`. -/
inductive FetchFn where
  | original
  | wrapped (m : DepMap) (inner : FetchFn)
deriving DecidableEq, Repr

/-- Number of wrapper layers around the native fetch. -/
def fetchDepth : FetchFn → Nat
  | FetchFn.original => 0
  | FetchFn.wrapped _ inner => fetchDepth inner + 1

/-- The page-global primitives the interceptor mutates: the current
`window.fetch` chain and the number of wrappers around
`document.createElement`. -/
structure PageState where
  fetchFn : FetchFn
  createElementWraps : Nat
deriving DecidableEq, Repr

/-- One execution of the install section of the inline script: both
primitives are reassigned to a new wrapper over their previous values,
with no guard against re-execution. -/
def installInterceptor (m : DepMap) (st : PageState) : PageState :=
  { fetchFn := FetchFn.wrapped m st.fetchFn
  , createElementWraps := st.createElementWraps + 1 }

/-- Behavior of a wrapper chain on a URL: each layer either answers with a
synthesized manifest or delegates a (possibly rewritten) URL to the
layer below; the native primitive performs the real request on the URL
it finally receives. -/
def runFetchFn : FetchFn → String → FetchOutcome
  | FetchFn.original, url => FetchOutcome.delegate url
  | FetchFn.wrapped m inner, url =>
    match fetchWrapped m url with
    | FetchOutcome.fakeManifest man => FetchOutcome.fakeManifest man
    | FetchOutcome.delegate u => runFetchFn inner u

/-! ## The exposed debug toggle of `ojs-offline-resolver.js`

Line 8 declares `const DEBUG = false;` and line 254 exposes
`setDebug: (enabled) => { DEBUG = enabled; }`.  The whole module is in
strict mode (line 5), and an assignment to a `const` binding in strict
mode throws a `TypeError` when the assignment executes.
-/

/-- Kind of a JS binding declaration. -/
inductive BindingKind where
  | kconst
  | klet
deriving DecidableEq, Repr

/-- The mutable state of the resolver module that `setDebug` addresses. -/
structure ModuleState where
  debugValue : Bool
deriving DecidableEq, Repr

/-- Strict-mode JS assignment to a binding: assigning to a `const` binding
throws a `TypeError`; assigning to a `let` binding updates it. -/
def assignBinding (k : BindingKind) (st : ModuleState) (v : Bool) : Except String ModuleState :=
  match k with
  | BindingKind.kconst => Except.error "TypeError: Assignment to constant variable."
  | BindingKind.klet => Except.ok { st with debugValue := v }

/-- The declaration kind of `DEBUG` in the source: `const DEBUG = false;`
(resolver line 8). -/
def DEBUG_BINDING : BindingKind := BindingKind.kconst

/-- `setDebug` as exposed on `window.__quartoOjsOffline` (resolver line
254): the body is the single strict-mode assignment `DEBUG = enabled`. -/
def setDebug (st : ModuleState) (enabled : Bool) : Except String ModuleState :=
  assignBinding DEBUG_BINDING st enabled

/-! ## The resolver algorithm as the spec words it

Modelled from the spec: section 4.2 gives `resolve` five strategies in
strict precedence order — exact key, canonical reconstruction, base
package, alias table, prefix scan.  These definitions follow the words
of the spec (plain lookups, no JS truthiness) and exist only to be
compared with the source-derived resolvers above.
-/

/-- Modelled from the spec: strategy 1, the raw specifier looked up
verbatim in the dependency map. -/
def specExactStep (m : DepMap) (s : String) : Option String :=
  jsLookup m s

/-- Modelled from the spec: strategy 2, the canonical
`name@version[/subpath]` string looked up when the parsed specifier
carries a version. -/
def specCanonicalStep (m : DepMap) (s : String) : Option String :=
  match (parsePackageIdentifier s).version with
  | some ver =>
    jsLookup m ((parsePackageIdentifier s).name ++ "@" ++ ver ++
      (if (parsePackageIdentifier s).path = "" then "" else "/" ++ (parsePackageIdentifier s).path))
  | none => none

/-- Modelled from the spec: strategy 3, the subpath dropped and
`name@version` looked up. -/
def specBaseStep (m : DepMap) (s : String) : Option String :=
  match (parsePackageIdentifier s).version with
  | some ver => jsLookup m ((parsePackageIdentifier s).name ++ "@" ++ ver)
  | none => none

/-- Modelled from the spec: strategy 4, `name@majorVersion` (major = text
before the first `.` of the parsed version) consulted in the alias
table, and the aliased key looked up in the dependency map. -/
def specAliasStep (al m : DepMap) (s : String) : Option String :=
  match (parsePackageIdentifier s).version with
  | some ver =>
    match jsLookup al ((parsePackageIdentifier s).name ++ "@" ++ ⟨takeUntil '.' ver.data⟩) with
    | some fullKey => jsLookup m fullKey
    | none => none
  | none => none

/-- Modelled from the spec: strategy 5, the first dependency-map key
starting with `name@`. -/
def specScanStep (m : DepMap) (s : String) : Option String :=
  scanFirst (fun k => sStartsWith k ((parsePackageIdentifier s).name ++ "@")) m

/-- Modelled from the spec: the full five-strategy resolver of section
4.2, first hit wins, `none` exactly when all five strategies fail. -/
def resolveSpec (m al : DepMap) (s : String) : Option String :=
  firstSome (specExactStep m s)
    (firstSome (specCanonicalStep m s)
      (firstSome (specBaseStep m s)
        (firstSome (specAliasStep al m s) (specScanStep m s))))

/-! ## Helper lemmas -/

theorem sdata_append (a b : String) : (a ++ b).data = a.data ++ b.data := by
  cases a; cases b; rfl

theorem strMk_cons_ne (c : Char) (l : List Char) : (⟨c :: l⟩ : String) ≠ "" :=
  fun h => List.noConfusion (show c :: l = [] from congrArg String.data h)

theorem strMk_ne_empty (l : List Char) (h : l ≠ []) : (⟨l⟩ : String) ≠ "" :=
  fun hc => h (congrArg String.data hc)

theorem str_data_ne (s : String) (h : s ≠ "") : s.data ≠ [] := by
  cases s with
  | mk l =>
    intro hc
    have hl : l = [] := hc
    rw [hl] at h
    exact h rfl

theorem splitLast_eq_none (c : Char) (cs : List Char) (h : c ∉ cs) :
    splitLast c cs = none := by
  induction cs with
  | nil => rfl
  | cons x xs ih =>
    have hx : ¬x = c := fun hv => h (by rw [hv]; exact List.mem_cons_self _ _)
    have hxs : c ∉ xs := fun hv => h (List.mem_cons_of_mem _ hv)
    simp [splitLast, ih hxs, hx]

theorem splitLast_append (c : Char) (nm ver : List Char) (h : c ∉ ver) :
    splitLast c (nm ++ c :: ver) = some (nm, ver) := by
  induction nm with
  | nil => simp [splitLast, splitLast_eq_none c ver h]
  | cons x xs ih => simp [splitLast, ih]

theorem takeUntil_append (c : Char) (l r : List Char) (h : c ∈ l) :
    takeUntil c (l ++ r) = takeUntil c l := by
  induction l with
  | nil => exact absurd h (List.not_mem_nil c)
  | cons x xs ih =>
    by_cases hx : x = c
    · simp [takeUntil, hx]
    · have hxs : c ∈ xs := by
        rcases List.mem_cons.mp h with h1 | h1
        · exact absurd h1.symm hx
        · exact h1
      simp [takeUntil, hx, ih hxs]

theorem getTruthy_nil (k : String) : getTruthy [] k = none := rfl

theorem findLocalPath_nil (s : String) : findLocalPath [] s = none := rfl

theorem luaAliasStep_nil (s : String) : luaAliasStep [] s = none := by
  unfold luaAliasStep
  cases splitLast '@' s.data with
  | none => rfl
  | some pr =>
    obtain ⟨nm, ver⟩ := pr
    by_cases hnm : nm = []
    · simp [hnm]
    · simp only [hnm, if_false]
      cases getTruthy versionAliases ⟨nm ++ '@' :: takeUntil '.' ver⟩ <;> rfl

theorem luaBareStep_nil (s : String) : luaBareStep [] s = none := by
  unfold luaBareStep
  cases bareMatch s.data <;> rfl

theorem luaScanStep_nil (s : String) : luaScanStep [] s = none := rfl

theorem findLocalPathL_nil (s : String) : findLocalPathL [] s = none := by
  unfold findLocalPathL
  rw [getTruthy_nil, luaAliasStep_nil, luaBareStep_nil, luaScanStep_nil]

theorem luaAliasStep_hit (m : DepMap) (s : String) (nm ver : List Char)
    (fullKey v : String)
    (hsplit : splitLast '@' s.data = some (nm, ver))
    (hnm : nm ≠ [])
    (halias : getTruthy versionAliases ⟨nm ++ '@' :: takeUntil '.' ver⟩ = some fullKey)
    (hfull : getTruthy m fullKey = some v) :
    luaAliasStep m s = some v := by
  unfold luaAliasStep
  rw [hsplit]
  simp only [hnm, if_false, halias, hfull]

theorem findLocalPathL_aliasHit (m : DepMap) (s : String) (nm ver : List Char)
    (fullKey v : String)
    (hdirect : getTruthy m s = none)
    (hsplit : splitLast '@' s.data = some (nm, ver))
    (hnm : nm ≠ [])
    (halias : getTruthy versionAliases ⟨nm ++ '@' :: takeUntil '.' ver⟩ = some fullKey)
    (hfull : getTruthy m fullKey = some v) :
    findLocalPathL m s = some v := by
  unfold findLocalPathL
  rw [hdirect, luaAliasStep_hit m s nm ver fullKey v hsplit hnm halias hfull]

theorem matchScoped_name_ne (s n v p : String)
    (h : matchScoped s = some (n, v, p)) : n ≠ "" := by
  unfold matchScoped at h
  repeat' split at h
  all_goals simp at h
  obtain ⟨h1, -⟩ := h
  subst h1
  exact strMk_cons_ne _ _

theorem matchRegular_name_ne (s n v p : String)
    (h : matchRegular s = some (n, v, p)) : n ≠ "" := by
  unfold matchRegular at h
  repeat' split at h
  all_goals simp at h
  case _ g1 r hsplit hg1 _ g2 g3 _ =>
    obtain ⟨h1, -⟩ := h
    subst h1
    exact strMk_ne_empty _ hg1

theorem cdnToLocal_not_cdn (m : DepMap) (url : String)
    (h1 : sStartsWith url CDN_JSDELIVR = false)
    (h2 : sStartsWith url CDN_OBSERVABLE = false) :
    cdnToLocal m url = CdnResult.noIntercept := by
  simp [cdnToLocal, h1, h2]

/-! ## Claims -/

/-- C1 counterexample: the five-strategy precedence of the spec matches
neither resolver.  Left pair: with map `d3@6.0.0 -> B, d3@7.8.5 -> A`
and alias `d3@7 -> d3@7.8.5`, the spec algorithm resolves `d3@7`
through the alias to `A`, but `findLocalPath` of
`ojs-offline-resolver.js` has no alias strategy and its prefix scan
returns `B` first.  Right pair: with map
`foo@1.0.0/dist/foo.js -> X, foo@1.0.0 -> Y`, the spec algorithm
resolves `foo@1.0.0/other.js` through the base-package strategy to
`Y`, but the inline resolver of `ojs-offline.lua` has no base-package
strategy and its any-version scan returns `X` first. -/
theorem C1_counterexample :
    (resolveSpec [("d3@6.0.0", "B"), ("d3@7.8.5", "A")] [("d3@7", "d3@7.8.5")] "d3@7" = some "A"
      ∧ findLocalPath [("d3@6.0.0", "B"), ("d3@7.8.5", "A")] "d3@7" = some "B")
    ∧ (resolveSpec [("foo@1.0.0/dist/foo.js", "X"), ("foo@1.0.0", "Y")] versionAliases
        "foo@1.0.0/other.js" = some "Y"
      ∧ findLocalPathL [("foo@1.0.0/dist/foo.js", "X"), ("foo@1.0.0", "Y")]
        "foo@1.0.0/other.js" = some "X")
    ∧ ("A" : String) ≠ "B" ∧ ("Y" : String) ≠ "X" := by
  decide

/-- C1 amended: `findLocalPath` of `ojs-offline-resolver.js` follows the
four-strategy precedence exact, canonical reconstruction, base package,
prefix scan — with no alias strategy — and the inline resolver of
`ojs-offline.lua` follows the precedence exact, fixed-table alias,
bare-name, any-version scan — with no canonical or base-package
strategy.  In each, the first hit wins and `none` is returned exactly
when every strategy fails. -/
theorem C1_amended (m : DepMap) (s : String) :
    findLocalPath m s =
      firstSome (jsDirectStep m s)
        (firstSome (jsFullKeyStep m s) (firstSome (jsBaseKeyStep m s) (jsScanStep m s)))
    ∧ findLocalPathL m s =
      firstSome (getTruthy m s)
        (firstSome (luaAliasStep m s) (firstSome (luaBareStep m s) (luaScanStep m s))) := by
  constructor
  · unfold findLocalPath jsDirectStep jsFullKeyStep jsBaseKeyStep jsScanStep firstSome
    rfl
  · unfold findLocalPathL firstSome
    rfl

/-- C2 counterexample: the claim quantifies over every dependency map, but
direct lookup precedes the alias strategy.  With alias
`d3@7 -> d3@7.8.5`, a map that also binds the shorthand `d3@7` itself
makes the inline resolver return that binding, not the value stored
for the aliased key. -/
theorem C2_counterexample :
    getTruthy versionAliases "d3@7" = some "d3@7.8.5"
    ∧ jsLookup [("d3@7", "local/override.js"), ("d3@7.8.5", "libs/d3@7.8.5/d3.min.js")]
        "d3@7.8.5" = some "libs/d3@7.8.5/d3.min.js"
    ∧ findLocalPathL [("d3@7", "local/override.js"), ("d3@7.8.5", "libs/d3@7.8.5/d3.min.js")]
        "d3@7" = some "local/override.js"
    ∧ ("local/override.js" : String) ≠ "libs/d3@7.8.5/d3.min.js" := by
  decide

/-- C2 amended: for every alias-table entry `name@major -> fullKey` of the
fixed table, if the map binds `fullKey` to a non-empty value and does
not itself bind the requested specifier to a truthy value, then the
inline resolver applied to `name@version` — for any `@`-free version
text whose part before the first `.` is `major` — returns the value
stored for `fullKey`. -/
theorem C2_amended (m : DepMap) (name version fullKey v : String)
    (hat : '@' ∉ version.data)
    (hn : name ≠ "")
    (halias : getTruthy versionAliases ⟨name.data ++ '@' :: takeUntil '.' version.data⟩
      = some fullKey)
    (hdirect : getTruthy m (name ++ "@" ++ version) = none)
    (hfull : getTruthy m fullKey = some v) :
    findLocalPathL m (name ++ "@" ++ version) = some v := by
  have hdata : (name ++ "@" ++ version).data = name.data ++ '@' :: version.data := by
    rw [sdata_append, sdata_append, List.append_assoc]
    rfl
  refine findLocalPathL_aliasHit m (name ++ "@" ++ version) name.data version.data fullKey v
    hdirect ?_ (str_data_ne name hn) halias hfull
  rw [hdata]
  exact splitLast_append '@' name.data version.data hat

/-- C2 witness: the concrete scenario of the claim — map
`d3@7.8.5 -> libs/d3@7.8.5/d3.min.js` and alias `d3@7 -> d3@7.8.5` —
resolved at `d3@7` through the amended theorem. -/
theorem C2_amended_witness :
    findLocalPathL [("d3@7.8.5", "libs/d3@7.8.5/d3.min.js")] ("d3" ++ "@" ++ "7")
      = some "libs/d3@7.8.5/d3.min.js" :=
  C2_amended [("d3@7.8.5", "libs/d3@7.8.5/d3.min.js")] "d3" "7" "d3@7.8.5"
    "libs/d3@7.8.5/d3.min.js" (by decide) (by decide) (by decide) (by decide) (by decide)

/-- C3: interceptor transparency.  For every dependency map and every URL
starting with neither recognized CDN prefix — which covers local and
relative paths — the wrapped fetch delegates to the original fetch with
the URL unmodified, the script-element `src` property setter passes the
value through unchanged, and the wrapped `setAttribute` passes any
attribute value through unchanged. -/
theorem C3_transparency (m : DepMap) (url : String)
    (h1 : sStartsWith url CDN_JSDELIVR = false)
    (h2 : sStartsWith url CDN_OBSERVABLE = false) :
    fetchWrapped m url = FetchOutcome.delegate url
    ∧ scriptSrcRewrite m url = url
    ∧ ∀ nm : String, scriptSetAttributeValue m nm url = url := by
  have hc := cdnToLocal_not_cdn m url h1 h2
  refine ⟨?_, ?_, ?_⟩
  · simp [fetchWrapped, hc]
  · simp [scriptSrcRewrite, hc]
  · intro nm
    by_cases hnm : nm = "src"
    · simp [scriptSetAttributeValue, hnm, scriptSrcRewrite, hc]
    · simp [scriptSetAttributeValue, hnm]

/-- C3 witness: the spec scenario — a request to
`https://example.com/other.js` passes through unchanged under a
non-empty map, on all three interception paths. -/
theorem C3_transparency_witness :
    fetchWrapped [("d3@7.8.5", "libs/d3@7.8.5/d3.min.js")] "https://example.com/other.js"
      = FetchOutcome.delegate "https://example.com/other.js"
    ∧ scriptSrcRewrite [("d3@7.8.5", "libs/d3@7.8.5/d3.min.js")] "https://example.com/other.js"
      = "https://example.com/other.js"
    ∧ scriptSetAttributeValue [("d3@7.8.5", "libs/d3@7.8.5/d3.min.js")] "src"
      "https://example.com/other.js" = "https://example.com/other.js" :=
  ⟨(C3_transparency _ _ (by decide) (by decide)).1,
   (C3_transparency _ _ (by decide) (by decide)).2.1,
   (C3_transparency _ _ (by decide) (by decide)).2.2 "src"⟩

/-- C4 counterexample: for a scoped package the synthesized manifest does
not take the name before the version separator.  A manifest request for
`@observablehq/plot@0.6.11/package.json` with a matching map entry
yields name `""` (the text before the FIRST `@`) and version
`observablehq/plot` (the text between the first and second `@`), not
name `@observablehq/plot` and version `0.6.11`. -/
theorem C4_counterexample :
    fetchWrapped [("@observablehq/plot@0.6.11", "libs/plot@0.6.11/plot.js")]
      "https://cdn.jsdelivr.net/npm/@observablehq/plot@0.6.11/package.json"
      = FetchOutcome.fakeManifest
        { name := "", version := "observablehq/plot", main := "plot.js"
        , jsdelivr := "plot.js", unpkg := "plot.js" }
    ∧ ("" : String) ≠ "@observablehq/plot"
    ∧ ("observablehq/plot" : String) ≠ "0.6.11" := by
  decide

/-- C4 amended: for every intercepted manifest request whose specifier
resolves to a truthy local path, the wrapped fetch returns a
synthesized manifest whose name is the specifier text before the first
`@` (empty for scoped packages), whose version is the text between the
first and second `@` (defaulting to `1.0.0` when absent or empty), and
whose `main`, `jsdelivr` and `unpkg` fields all equal the basename of
the resolved local file. -/
theorem C4_amended (m : DepMap) (url pkg mp : String)
    (h1 : cdnToLocal m url = CdnResult.packageJsonReq pkg)
    (h2 : findLocalPathL m pkg = some mp)
    (h3 : mp ≠ "") :
    fetchWrapped m url = FetchOutcome.fakeManifest
      { name := manifestNameOf pkg, version := manifestVersionOf pkg
      , main := baseNameOf mp, jsdelivr := baseNameOf mp, unpkg := baseNameOf mp } := by
  simp [fetchWrapped, h1, h2, h3]

/-- C4 witness: the concrete scenario of the claim — a manifest request
for `d3@7.8.5/package.json` with map entry
`d3@7.8.5 -> libs/d3@7.8.5/d3.min.js` yields the manifest with name
`d3`, version `7.8.5` and all three entry fields `d3.min.js`. -/
theorem C4_amended_witness :
    fetchWrapped [("d3@7.8.5", "libs/d3@7.8.5/d3.min.js")]
      "https://cdn.jsdelivr.net/npm/d3@7.8.5/package.json"
      = FetchOutcome.fakeManifest
        { name := "d3", version := "7.8.5", main := "d3.min.js"
        , jsdelivr := "d3.min.js", unpkg := "d3.min.js" } :=
  (C4_amended [("d3@7.8.5", "libs/d3@7.8.5/d3.min.js")]
    "https://cdn.jsdelivr.net/npm/d3@7.8.5/package.json" "d3@7.8.5"
    "libs/d3@7.8.5/d3.min.js" (by decide) (by decide) (by decide)).trans (by decide)

/-- C5: the specifier parser is total by construction — it is a plain
function of the input string, and the JS body only performs regex
matches and property reads, none of which can throw — and for every
input matching neither the scoped nor the regular form, the result is
the bare-name fallback: name = the entire input, version absent,
subpath empty. -/
theorem C5_total_fallback (s : String)
    (h1 : matchScoped s = none)
    (h2 : matchRegular s = none) :
    parsePackageIdentifier s = { name := s, version := none, path := "" } := by
  simp [parsePackageIdentifier, h1, h2]

/-- C5 witness: `lodash` matches neither versioned form and parses to the
bare-name fallback. -/
theorem C5_total_fallback_witness :
    parsePackageIdentifier "lodash" = { name := "lodash", version := none, path := "" } :=
  C5_total_fallback "lodash" (by decide) (by decide)

/-- C6 counterexample: the claim includes the empty input string, but the
bare-name fallback copies the input into the name field, so parsing ""
yields an empty name. -/
theorem C6_counterexample : (parsePackageIdentifier "").name = "" := by
  decide

/-- C6 amended: for every non-empty input string, the parsed name field is
non-empty — the scoped form starts with `@`, the regular form requires
at least one character before the `@`, and the bare-name fallback
copies the whole (non-empty) input. -/
theorem C6_amended (s : String) (h : s ≠ "") :
    (parsePackageIdentifier s).name ≠ "" := by
  unfold parsePackageIdentifier
  cases h1 : matchScoped s with
  | some t =>
    obtain ⟨n, v, p⟩ := t
    simpa using matchScoped_name_ne s n v p h1
  | none =>
    cases h2 : matchRegular s with
    | some t =>
      obtain ⟨n, v, p⟩ := t
      simpa using matchRegular_name_ne s n v p h2
    | none => simpa using h

/-- C6 witness: a concrete non-empty specifier has a non-empty parsed
name. -/
theorem C6_amended_witness : (parsePackageIdentifier "d3@7.8.5").name ≠ "" :=
  C6_amended "d3@7.8.5" (by decide)

/-- C7 counterexample: running the inline install script twice is not a
no-op.  The script has no guard flag, so a second execution wraps the
primitives again: after two runs the fetch chain has depth 2 and the
`createElement` wrapper count is 2, whereas one run leaves depth 1. -/
theorem C7_counterexample :
    installInterceptor [("d3@7.8.5", "A")]
        (installInterceptor [("d3@7.8.5", "A")] ⟨FetchFn.original, 0⟩)
      ≠ installInterceptor [("d3@7.8.5", "A")] ⟨FetchFn.original, 0⟩
    ∧ fetchDepth (installInterceptor [("d3@7.8.5", "A")]
        (installInterceptor [("d3@7.8.5", "A")] ⟨FetchFn.original, 0⟩)).fetchFn = 2
    ∧ fetchDepth (installInterceptor [("d3@7.8.5", "A")] ⟨FetchFn.original, 0⟩).fetchFn = 1 := by
  decide

/-- C7 amended: repeated initialization compounds rather than being
guarded: every execution of the install section increases the wrapping
depth of both the network-fetch and the element-creation primitive by
exactly one (each new wrapper delegates to the previously installed
one, so behavior composes, but the depth grows without bound). -/
theorem C7_amended (m : DepMap) (st : PageState) :
    fetchDepth (installInterceptor m st).fetchFn = fetchDepth st.fetchFn + 1
    ∧ (installInterceptor m st).createElementWraps = st.createElementWraps + 1 :=
  ⟨rfl, rfl⟩

/-- C8: when the primary embedded-reference load fails (it did not return
a parsed map) and the fallback direct fetch also fails (thrown or
response not ok), initialization completes with the empty map — the
load step catches every exception and never raises out of its caller,
which the model reflects by `loadDependencyMap` being a total
function — and every subsequent resolve over the empty map, in either
resolver, returns null. -/
theorem C8_load_failure (env : LoadEnv)
    (hp : ∀ mp : DepMap, env.primaryResult ≠ Except.ok mp)
    (hf : ∀ mp : DepMap, env.fallbackResult ≠ Except.ok (some mp)) :
    loadDependencyMap env = []
    ∧ ∀ s : String, findLocalPath [] s = none ∧ findLocalPathL [] s = none := by
  constructor
  · unfold loadDependencyMap
    obtain ⟨ms, pr, fr⟩ := env
    cases ms with
    | some u =>
      cases u with
      | some url =>
        cases pr with
        | ok mp => exact absurd rfl (hp mp)
        | error e => rfl
      | none =>
        cases fr with
        | ok o =>
          cases o with
          | some mp => exact absurd rfl (hf mp)
          | none => rfl
        | error e => rfl
    | none =>
      cases fr with
      | ok o =>
        cases o with
        | some mp => exact absurd rfl (hf mp)
        | none => rfl
      | error e => rfl
  · intro s
    exact ⟨findLocalPath_nil s, findLocalPathL_nil s⟩

/-- C8 witness: a run whose primary fetch throws and whose fallback fetch
throws ends with the empty map, over which a concrete specifier
resolves to null in both resolvers. -/
theorem C8_load_failure_witness :
    loadDependencyMap ⟨some (some "map.json"), Except.error "network down",
      Except.error "network down"⟩ = []
    ∧ findLocalPath [] "d3@7" = none
    ∧ findLocalPathL [] "d3@7" = none :=
  ⟨(C8_load_failure ⟨some (some "map.json"), Except.error "network down",
      Except.error "network down"⟩ (fun _ h => nomatch h) (fun _ h => nomatch h)).1,
   ((C8_load_failure ⟨some (some "map.json"), Except.error "network down",
      Except.error "network down"⟩ (fun _ h => nomatch h) (fun _ h => nomatch h)).2 "d3@7").1,
   ((C8_load_failure ⟨some (some "map.json"), Except.error "network down",
      Except.error "network down"⟩ (fun _ h => nomatch h) (fun _ h => nomatch h)).2 "d3@7").2⟩

/-- C9: the code bug at the failing input.  `DEBUG` is declared with
`const` in a strict-mode module, so every call of the exposed
`setDebug` throws a `TypeError` instead of completing and updating the
logging flag: the toggle never works for any boolean argument. -/
theorem C9_setDebug_throws (st : ModuleState) (enabled : Bool) :
    setDebug st enabled = Except.error "TypeError: Assignment to constant variable." :=
  rfl

/-- C10 counterexample: the claim quantifies over every such specifier,
but direct lookup precedes the alias branch.  For
`d3@7.1/dist/file.js` — dotted version, subpath, `d3@7` in the alias
table, aliased key `d3@7.8.5` in the map — a map that also binds the
subpath-specific key itself makes the inline resolver return that
binding: the subpath file IS looked up, and the aliased base value is
not returned. -/
theorem C10_counterexample :
    getTruthy versionAliases "d3@7" = some "d3@7.8.5"
    ∧ jsLookup [("d3@7.1/dist/file.js", "libs/sub.js"), ("d3@7.8.5", "libs/d3.min.js")]
        "d3@7.8.5" = some "libs/d3.min.js"
    ∧ findLocalPathL [("d3@7.1/dist/file.js", "libs/sub.js"), ("d3@7.8.5", "libs/d3.min.js")]
        "d3@7.1/dist/file.js" = some "libs/sub.js"
    ∧ ("libs/sub.js" : String) ≠ "libs/d3.min.js" := by
  decide

/-- C10 amended: for every specifier `name@version/subpath` with a dotted,
`@`-free version, an `@`-free subpath, `name@major` in the alias table
(major = text before the first `.` of the version), the aliased key
bound to a non-empty value in the map, and the specifier itself not
bound to a truthy value, the inline resolver returns the map value
stored for the aliased base package, silently discarding the requested
subpath. -/
theorem C10_amended (m : DepMap) (name version subpath fullKey v : String)
    (hat : '@' ∉ version.data)
    (hat2 : '@' ∉ subpath.data)
    (hdot : '.' ∈ version.data)
    (hn : name ≠ "")
    (halias : getTruthy versionAliases ⟨name.data ++ '@' :: takeUntil '.' version.data⟩
      = some fullKey)
    (hdirect : getTruthy m (name ++ "@" ++ version ++ "/" ++ subpath) = none)
    (hfull : getTruthy m fullKey = some v) :
    findLocalPathL m (name ++ "@" ++ version ++ "/" ++ subpath) = some v := by
  have hdata : (name ++ "@" ++ version ++ "/" ++ subpath).data
      = name.data ++ '@' :: (version.data ++ '/' :: subpath.data) := by
    rw [sdata_append, sdata_append, sdata_append, sdata_append]
    rw [List.append_assoc, List.append_assoc, List.append_assoc]
    rfl
  have hatver : '@' ∉ version.data ++ '/' :: subpath.data := by
    intro hmem
    rcases List.mem_append.mp hmem with hmem1 | hmem1
    · exact hat hmem1
    · rcases List.mem_cons.mp hmem1 with hmem2 | hmem2
      · exact absurd hmem2 (by decide)
      · exact hat2 hmem2
  refine findLocalPathL_aliasHit m (name ++ "@" ++ version ++ "/" ++ subpath)
    name.data (version.data ++ '/' :: subpath.data) fullKey v hdirect ?_
    (str_data_ne name hn) ?_ hfull
  · rw [hdata]
    exact splitLast_append '@' name.data (version.data ++ '/' :: subpath.data) hatver
  · rw [show takeUntil '.' (version.data ++ '/' :: subpath.data)
        = takeUntil '.' version.data from takeUntil_append '.' version.data _ hdot]
    exact halias

/-- C10 witness: specifier `d3@7.1/dist/file.js` over the map binding only
`d3@7.8.5`: the inline resolver returns the aliased base value and the
requested subpath is discarded. -/
theorem C10_amended_witness :
    findLocalPathL [("d3@7.8.5", "libs/d3@7.8.5/d3.min.js")]
      ("d3" ++ "@" ++ "7.1" ++ "/" ++ "dist/file.js") = some "libs/d3@7.8.5/d3.min.js" :=
  C10_amended [("d3@7.8.5", "libs/d3@7.8.5/d3.min.js")] "d3" "7.1" "dist/file.js"
    "d3@7.8.5" "libs/d3@7.8.5/d3.min.js" (by decide) (by decide) (by decide) (by decide)
    (by decide) (by decide) (by decide)
